import Mathlib

/-!
Shallow embedding of the Daily Leaderboard core of the `minigame2` service.

Sources embedded here:
* `src/db.js` — the `DailyRank` row shape, `trimTodayRank`, `getBeijingDateString`;
* `src/unnamed/part_001` (the current server file) — `getBeijingHour`,
  `cleanupOldRanks`, the once-per-minute cleanup tick of `setupDailyCleanup`,
  `getPlayerRank`, and the `/api/rank/submit` handler;
* `src/unnamed/part_000` (the legacy server file) — its `/api/rank/submit`
  handler, which validates `roleID` and unconditionally overwrites the row.

Modelling conventions: timestamps are `Nat` milliseconds since the Unix epoch
(the system clock value); JS numbers used as scores/role ids are `Int` (the
handlers only ever compare and store them); the database table is a `List` of
rows together with the next auto-increment id; a `Faults` record makes the
possible store-call failures explicit — a `true` flag means that store call
throws, and the embedding then follows the corresponding JS `catch` path.
-/

namespace Minigame

/-! ### DateProvider: `getBeijingDateString` (src/db.js) and `getBeijingHour` (part_001) -/

/-- `Date.prototype.getUTCHours` for a timestamp in milliseconds. -/
def getUTCHours (t : Nat) : Nat := t / 3600000 % 24

/-- `getBeijingHour` from part_001: `(now.getUTCHours() + 8) % 24`. -/
def getBeijingHour (t : Nat) : Nat := (getUTCHours t + 8) % 24

/-- Civil date (year, month, day) of a day count since 1970-01-01, the
standard days-to-civil conversion used by `Date.prototype.toISOString`. -/
def civilFromDays (z : Nat) : Nat × Nat × Nat :=
  let z' := z + 719468
  let era := z' / 146097
  let doe := z' % 146097
  let yoe := (doe - doe / 1460 + doe / 36524 - doe / 146096) / 365
  let y := yoe + era * 400
  let doy := doe - (365 * yoe + yoe / 4 - yoe / 100)
  let mp := (5 * doy + 2) / 153
  let d := doy - (153 * mp + 2) / 5 + 1
  let m := if mp < 10 then mp + 3 else mp - 9
  (if m ≤ 2 then y + 1 else y, m, d)

/-- Zero-pad a number to two digits, as in an ISO date string. -/
def pad2 (n : Nat) : String := if n < 10 then "0" ++ toString n else toString n

/-- Render a civil date as `YYYY-MM-DD`. -/
def formatCivil : Nat × Nat × Nat → String
  | (y, m, d) => toString y ++ "-" ++ pad2 m ++ "-" ++ pad2 d

/-- The date component of `new Date(t).toISOString()`: the UTC calendar day
string of the timestamp, i.e. the day truncation of the clock value. -/
def utcDateString (t : Nat) : String := formatCivil (civilFromDays (t / 86400000))

/-- `getBeijingDateString` from src/db.js:
`new Date(date.getTime() + 8*60*60*1000).toISOString().split('T')[0]`. -/
def getBeijingDateString (t : Nat) : String := utcDateString (t + 8 * 60 * 60 * 1000)

/-- JS `String.prototype.trim`: drop leading and trailing whitespace. Stated
over the character list so that it evaluates by kernel reduction. -/
def jsTrim (s : String) : String :=
  ⟨((s.data.dropWhile Char.isWhitespace).reverse.dropWhile Char.isWhitespace).reverse⟩

/-! ### Data model: the `DailyRank` table (src/db.js) -/

/-- One `DailyRank` row: auto-increment `id`, the score fields, and the
Sequelize-managed `createdAt` timestamp (never touched on update). -/
structure RankEntry where
  id : Nat
  playerName : String
  roleID : Int
  instanceID : Int
  openid : String
  recordDate : String
  createdAt : Nat
deriving DecidableEq, Repr

/-- The persisted table plus the auto-increment counter. -/
structure RankTable where
  rows : List RankEntry
  nextId : Nat
deriving DecidableEq, Repr

/-- The `ORDER BY instanceID DESC, createdAt ASC` ordering used by every
leaderboard query: `a` sorts no later than `b`. -/
def RankBefore (a b : RankEntry) : Prop :=
  b.instanceID < a.instanceID ∨ (a.instanceID = b.instanceID ∧ a.createdAt ≤ b.createdAt)

instance : DecidableRel RankBefore := fun a b => by
  unfold RankBefore; infer_instance

instance : IsTotal RankEntry RankBefore where
  total a b := by
    rcases lt_trichotomy a.instanceID b.instanceID with h | h | h
    · exact Or.inr (Or.inl h)
    · rcases Nat.le_total a.createdAt b.createdAt with h' | h'
      · exact Or.inl (Or.inr ⟨h, h'⟩)
      · exact Or.inr (Or.inr ⟨h.symm, h'⟩)
    · exact Or.inl (Or.inl h)

instance : IsTrans RankEntry RankBefore where
  trans a b c hab hbc := by
    rcases hab with h1 | ⟨h1, h1'⟩
    · rcases hbc with h2 | ⟨h2, _⟩
      · exact Or.inl (h2.trans h1)
      · exact Or.inl (h2 ▸ h1)
    · rcases hbc with h2 | ⟨h2, h2'⟩
      · exact Or.inl (h1 ▸ h2)
      · exact Or.inr ⟨h1.trans h2, h1'.trans h2'⟩

/-- `DailyRank.findAll({where: {recordDate: d}, order: [[instanceID, DESC],
[createdAt, ASC]], limit})` — the top-`limit` query shared by trim, rank and
list. -/
def findTop (rows : List RankEntry) (d : String) (limit : Nat) : List RankEntry :=
  (List.insertionSort RankBefore (rows.filter fun r => decide (r.recordDate = d))).take limit

/-- `DailyRank.findOne({where: {openid, recordDate}})`. -/
def rankFindOne (rows : List RankEntry) (openid d : String) : Option RankEntry :=
  rows.find? fun r => decide (r.openid = openid) && decide (r.recordDate = d)

/-! ### `trimTodayRank` (src/db.js lines 183–216)

The two `Bool` flags are the failure oracle: `fFind` means the `findAll`
throws, `fDestroy` means the `destroy` throws. Both are caught by the
function's own `try/catch`, which returns `0` and leaves the table as the
failed statement left it (a failed single SQL statement has no effect). -/

/-- `trimTodayRank(today)`: fetch the top 100 for the day, then destroy every
row of that day whose id is not among them; returns the new table and the
number of rows the `destroy` removed (0 on the empty-day early return or on a
caught error). -/
def trimTodayRank (fFind fDestroy : Bool) (rows : List RankEntry) (today : String) :
    List RankEntry × Nat :=
  if fFind then (rows, 0)
  else
    let recordsToKeep := findTop rows today 100
    if recordsToKeep.length = 0 then (rows, 0)
    else
      let idsToKeep := recordsToKeep.map (·.id)
      if fDestroy then (rows, 0)
      else
        let deleted := rows.filter fun r =>
          decide (r.recordDate = today) && !(idsToKeep.contains r.id)
        (rows.filter fun r =>
          !(decide (r.recordDate = today) && !(idsToKeep.contains r.id)), deleted.length)

/-! ### `getPlayerRank` (part_001 lines 112–154) -/

/-- The tie-break counting loop of `getPlayerRank`: walk the top-100 list,
counting entries strictly better than the player (higher score, or equal
score with earlier `createdAt`), and `break` at the first entry that is not. -/
def higherLoop (s : Int) (t : Nat) : List RankEntry → Nat
  | [] => 0
  | r :: rest =>
    if s < r.instanceID then higherLoop s t rest + 1
    else if r.instanceID = s ∧ r.createdAt < t then higherLoop s t rest + 1
    else 0

/-- `getPlayerRank(openid, today)`: fetch the top 100 in leaderboard order,
locate the player's (first) entry, and return `higherCount + 1`, or `null`
when the player is not in that window. `fFind` models the store call
throwing, which the function catches and turns into `null`. -/
def getPlayerRank (fFind : Bool) (rows : List RankEntry) (openid today : String) :
    Option Nat :=
  if fFind then none
  else
    let top100 := findTop rows today 100
    match top100.find? (fun r => decide (r.openid = openid)) with
    | none => none
    | some p => some (higherLoop p.instanceID p.createdAt top100 + 1)

/-! ### The `/api/rank/submit` handler of part_001 (lines 390–491) -/

/-- Failure oracle for the store calls a submit makes, in program order:
`findOne`, the write (`update` or `create`), the two statements inside
`trimTodayRank`, and the `findAll` inside `getPlayerRank`. -/
structure Faults where
  findOne : Bool
  write : Bool
  trimFind : Bool
  trimDestroy : Bool
  rankFind : Bool
deriving DecidableEq, Repr

/-- No store call fails. -/
def noFaults : Faults := ⟨false, false, false, false, false⟩

/-- The JSON replies of the part_001 submit handler, one constructor per
`res` site: 401 missing identity, 400 empty name, 400 bad score, 500 from the
`catch`, the code-0 "score not improved" reply (`isUpdated: false`), and the
code-0 success reply carrying the (nullable) rank. -/
inductive SubmitResponse where
  | authError
  | nameError
  | scoreError
  | serverError
  | notImproved (playerName : String) (roleID : Int) (instanceID : Int) (date : String)
  | ok (isNew : Bool) (playerName : String) (roleID : Int) (instanceID : Int)
      (rank : Option Nat) (date : String)
deriving DecidableEq, Repr

/-- The HTTP status/business code of each reply (0 is success). -/
def SubmitResponse.code : SubmitResponse → Nat
  | .authError => 401
  | .nameError => 400
  | .scoreError => 400
  | .serverError => 500
  | .notImproved _ _ _ _ => 0
  | .ok _ _ _ _ _ _ => 0

/-- The part_001 `/api/rank/submit` handler. Arguments mirror the request:
the `x-wx-openid` header, and the `playerName`, `instanceID`, `roleID` body
fields (`none` = absent; `roleID` defaults to 1). `now` is the clock value:
`beijingDateToday` and the `createdAt` of a fresh row both derive from it.
Validation runs before any store access; then find-or-write, keeping only a
strictly higher score; on a write, trim the day and compute the rank. A fault
in `findOne` or the write propagates to the handler's `catch` (500, no
further effects); faults inside trim/rank are absorbed by those functions. -/
def submit (f : Faults) (st : RankTable) (now : Nat) (openid : Option String)
    (playerName : Option String) (instanceID : Option Int) (roleID : Option Int) :
    RankTable × SubmitResponse :=
  match openid with
  | none => (st, .authError)
  | some oid =>
    match playerName with
    | none => (st, .nameError)
    | some pn =>
      if jsTrim pn = "" then (st, .nameError)
      else
        match instanceID with
        | none => (st, .scoreError)
        | some sc =>
          if sc < 0 then (st, .scoreError)
          else
            let rid := roleID.getD 1
            let today := getBeijingDateString now
            let finish : RankTable → Bool → RankEntry → RankTable × SubmitResponse :=
              fun st' isNew rec =>
                let trimmed := (trimTodayRank f.trimFind f.trimDestroy st'.rows today).1
                let rank := getPlayerRank f.rankFind trimmed oid today
                ({ st' with rows := trimmed },
                 .ok isNew rec.playerName rec.roleID rec.instanceID rank rec.recordDate)
            if f.findOne then (st, .serverError)
            else
              match rankFindOne st.rows oid today with
              | some r =>
                if r.instanceID < sc then
                  if f.write then (st, .serverError)
                  else
                    let upd : RankEntry :=
                      { r with playerName := jsTrim pn, roleID := rid, instanceID := sc }
                    finish
                      { st with rows := st.rows.map fun x => if x.id = r.id then upd else x }
                      false upd
                else (st, .notImproved r.playerName r.roleID r.instanceID r.recordDate)
              | none =>
                if f.write then (st, .serverError)
                else
                  let newRow : RankEntry := ⟨st.nextId, jsTrim pn, rid, sc, oid, today, now⟩
                  finish ⟨st.rows ++ [newRow], st.nextId + 1⟩ true newRow

/-! ### The legacy `/api/rank/submit` handler of part_000 (lines 283–333) -/

/-- The JSON replies of the part_000 submit handler; it additionally rejects
a bad `roleID`, and its success reply has no rank field. -/
inductive LegacyResponse where
  | authError
  | nameError
  | scoreError
  | roleError
  | ok (created : Bool) (playerName : String) (roleID : Int) (instanceID : Int)
      (date : String)
deriving DecidableEq, Repr

/-- The part_000 handler: validates the name, score and role, then a plain
`DailyRank.upsert` on the `(openid, recordDate)` unique key that overwrites
`playerName`, `roleID` and `instanceID` unconditionally. -/
def submitLegacy (st : RankTable) (now : Nat) (openid : Option String)
    (playerName : Option String) (instanceID : Option Int) (roleID : Option Int) :
    RankTable × LegacyResponse :=
  match openid with
  | none => (st, .authError)
  | some oid =>
    match playerName with
    | none => (st, .nameError)
    | some pn =>
      if jsTrim pn = "" then (st, .nameError)
      else
        match instanceID with
        | none => (st, .scoreError)
        | some sc =>
          if sc < 0 then (st, .scoreError)
          else
            let rid := roleID.getD 1
            match roleID with
            | some r => if r < 0 then (st, .roleError) else
                submitLegacyUpsert st now oid pn sc rid
            | none => submitLegacyUpsert st now oid pn sc rid
where
  /-- The `DailyRank.upsert` step shared by both role branches. -/
  submitLegacyUpsert (st : RankTable) (now : Nat) (oid pn : String) (sc rid : Int) :
      RankTable × LegacyResponse :=
    let today := getBeijingDateString now
    match rankFindOne st.rows oid today with
    | some r =>
      let upd : RankEntry :=
        { r with playerName := jsTrim pn, roleID := rid, instanceID := sc }
      ({ st with rows := st.rows.map fun x => if x.id = r.id then upd else x },
       .ok false upd.playerName upd.roleID upd.instanceID upd.recordDate)
    | none =>
      let newRow : RankEntry := ⟨st.nextId, jsTrim pn, rid, sc, oid, today, now⟩
      (⟨st.rows ++ [newRow], st.nextId + 1⟩,
       .ok true newRow.playerName newRow.roleID newRow.instanceID newRow.recordDate)

/-! ### The cleanup scheduler of part_001 (lines 28–106) -/

/-- The scheduler's in-process state: the shared table plus the two
module-level flags `lastCleanupDay` and `isCleaning`. -/
structure SchedulerState where
  rows : List RankEntry
  lastCleanupDay : Option String
  isCleaning : Bool
deriving DecidableEq, Repr

/-- `cleanupOldRanks`: skip if a pass is already running, otherwise set the
guard, destroy every row whose `recordDate` is not today, and release the
guard in the `finally`. -/
def cleanupOldRanks (now : Nat) (s : SchedulerState) : SchedulerState :=
  if s.isCleaning then s
  else
    let s1 := { s with isCleaning := true }
    let today := getBeijingDateString now
    let s2 := { s1 with rows := s1.rows.filter fun r => decide (r.recordDate = today) }
    { s2 with isCleaning := false }

/-- The once-per-minute tick of `setupDailyCleanup`: at Beijing hour 0, if
today has not been cleaned yet, record today in `lastCleanupDay`, run
`cleanupOldRanks`, then `trimTodayRank(today)`. -/
def minuteTick (now : Nat) (s : SchedulerState) : SchedulerState :=
  let today := getBeijingDateString now
  let beijingHour := getBeijingHour now
  if beijingHour = 0 ∧ s.lastCleanupDay ≠ some today then
    let s1 := { s with lastCleanupDay := some today }
    let s2 := cleanupOldRanks now s1
    { s2 with rows := (trimTodayRank false false s2.rows today).1 }
  else s

/-! ### Table invariants used as hypotheses -/

/-- The auto-increment primary key: all row ids are distinct. -/
def NodupIds (rows : List RankEntry) : Prop := (rows.map (·.id)).Nodup

/-- The `idx_user_date` unique index: at most one row per
`(openid, recordDate)` pair. -/
def UniqueKey (rows : List RankEntry) : Prop :=
  ∀ a ∈ rows, ∀ b ∈ rows, a.openid = b.openid → a.recordDate = b.recordDate → a = b

instance : DecidablePred NodupIds := fun rows => by
  unfold NodupIds; infer_instance

instance (rows : List RankEntry) : Decidable (UniqueKey rows) := by
  unfold UniqueKey; infer_instance

/-- Concrete witness data: a day with 100 stored rows of score 1000, ids and
creation times 0..99. -/
def overflowWitnessRows : List RankEntry :=
  (List.range 100).map fun i => ⟨i, "p", 1, 1000, "u", "1970-01-01", i⟩

/-! ### General lemmas about the embedded operations -/

/-- The day predicate used by every per-day query. -/
def dayP (d : String) (r : RankEntry) : Bool := decide (r.recordDate = d)

theorem mem_findTop {rows : List RankEntry} {d : String} {limit : Nat} {r : RankEntry}
    (h : r ∈ findTop rows d limit) : r ∈ rows ∧ r.recordDate = d := by
  unfold findTop at h
  have h' := (List.take_sublist _ _).mem h
  rw [List.mem_insertionSort] at h'
  have := List.mem_filter.mp h'
  exact ⟨this.1, of_decide_eq_true this.2⟩

theorem findTop_pairwise (rows : List RankEntry) (d : String) (limit : Nat) :
    (findTop rows d limit).Pairwise RankBefore :=
  (List.sorted_insertionSort RankBefore _).sublist (List.take_sublist _ _)

theorem mem_trimTodayRank {f1 f2 : Bool} {rows : List RankEntry} {d : String}
    {r : RankEntry} (h : r ∈ (trimTodayRank f1 f2 rows d).1) : r ∈ rows := by
  unfold trimTodayRank at h
  dsimp only at h
  split_ifs at h <;> first | exact h | exact (List.mem_filter.mp h).1

theorem rankFindOne_eq_none {rows : List RankEntry} {oid d : String} :
    rankFindOne rows oid d = none ↔ ∀ r ∈ rows, ¬(r.openid = oid ∧ r.recordDate = d) := by
  unfold rankFindOne
  rw [List.find?_eq_none]
  constructor
  · intro h r hr hk
    exact h r hr (by simp [hk.1, hk.2])
  · intro h r hr
    simpa using fun h1 h2 => h r hr ⟨h1, h2⟩

/-! ## C8 — DateProvider -/

/-- C8: `getBeijingDateString t` is exactly the UTC calendar-day string of the
clock value shifted by the fixed 8-hour offset (the date truncation of the
shifted clock), and `getBeijingHour t` is `(UTC hour of t + 8) % 24`, a value
in `0..23`, which coincides with the hour-of-day of the same shifted clock.
Both are pure functions of the timestamp `t` alone. -/
theorem dateProvider_fixed_offset (t : Nat) :
    getBeijingDateString t = utcDateString (t + 8 * 60 * 60 * 1000) ∧
    getBeijingHour t = (getUTCHours t + 8) % 24 ∧
    getBeijingHour t < 24 ∧
    getBeijingHour t = (t + 8 * 60 * 60 * 1000) / 3600000 % 24 := by
  refine ⟨rfl, rfl, Nat.mod_lt _ (by norm_num), ?_⟩
  unfold getBeijingHour getUTCHours
  omega

/-! ## C1 — a lower-or-equal submission is a no-op -/

/-- C1: if the player already has a row `r` for today and submits a score
`sc ≤ r.instanceID` (with inputs passing validation), the part_001 submit
leaves the whole table unchanged — so the stored score, name and role fields
are untouched and no trimming happens — and replies with the existing stored
record flagged as not updated; only a strictly higher score takes the update
path. -/
theorem submit_not_improved_noop (st : RankTable) (now : Nat) (oid pn : String)
    (sc : Int) (rid : Option Int) (r : RankEntry)
    (hname : ¬jsTrim pn = "") (hsc : 0 ≤ sc)
    (hfind : rankFindOne st.rows oid (getBeijingDateString now) = some r)
    (hle : sc ≤ r.instanceID) :
    submit noFaults st now (some oid) (some pn) (some sc) rid
      = (st, .notImproved r.playerName r.roleID r.instanceID r.recordDate) := by
  unfold submit noFaults
  simp only [hname, if_false, not_lt.mpr hsc, if_neg (not_lt.mpr hsc), hfind,
    Bool.false_eq_true, ite_false, not_lt.mpr hle, if_neg (not_lt.mpr hle)]

/-- Witness for C1 at a concrete store: resubmitting an equal score returns
the stored record unchanged. -/
theorem submit_not_improved_noop_witness :
    submit noFaults ⟨[⟨5, "Bob", 2, 10, "p1", "1970-01-01", 3⟩], 6⟩ 4000
        (some "p1") (some "Bobby") (some 10) (some 7)
      = (⟨[⟨5, "Bob", 2, 10, "p1", "1970-01-01", 3⟩], 6⟩,
         .notImproved "Bob" 2 10 "1970-01-01") :=
  submit_not_improved_noop ⟨[⟨5, "Bob", 2, 10, "p1", "1970-01-01", 3⟩], 6⟩ 4000
    "p1" "Bobby" 10 (some 7) ⟨5, "Bob", 2, 10, "p1", "1970-01-01", 3⟩
    (by decide) (by decide) (by decide) (by decide)

/-! ## C2 — validation before store access -/

/-- C2 counterexample: the part_001 submit handler does not validate
`roleID`. A submit with `roleID = -1` (name and score valid) is not rejected:
it creates a row carrying `roleID = -1` and replies with success, mutating
the store. -/
theorem submit_negative_role_accepted :
    submit noFaults ⟨[], 0⟩ 0 (some "p1") (some "Alice") (some 10) (some (-1))
      = (⟨[⟨0, "Alice", -1, 10, "p1", "1970-01-01", 0⟩], 1⟩,
         .ok true "Alice" (-1) 10 (some 1) "1970-01-01") := by decide

/-- C2 amended: in the part_001 handler an absent or trim-empty `playerName`
and an absent or negative `instanceID` are rejected before any store access —
for every table and every store-fault configuration the reply is the 400
caller error and the table is untouched; an absent `roleID` defaults to 1;
but `roleID` itself is not validated there — only the legacy part_000 handler
rejects a negative `roleID` (again with no store access and no mutation). -/
theorem submit_validation_before_store (st : RankTable) (now : Nat)
    (oid pnBad pnGood : String) (scBad scGood : Int) (rid : Option Int)
    (rneg : Int) (f : Faults)
    (hbad : jsTrim pnBad = "") (hgood : ¬jsTrim pnGood = "")
    (hscBad : scBad < 0) (hscGood : 0 ≤ scGood) (hrneg : rneg < 0) :
    submit f st now (some oid) none (some scGood) rid = (st, .nameError)
    ∧ submit f st now (some oid) (some pnBad) (some scGood) rid = (st, .nameError)
    ∧ submit f st now (some oid) (some pnGood) none rid = (st, .scoreError)
    ∧ submit f st now (some oid) (some pnGood) (some scBad) rid = (st, .scoreError)
    ∧ submit f st now (some oid) (some pnGood) (some scGood) none
        = submit f st now (some oid) (some pnGood) (some scGood) (some 1)
    ∧ submitLegacy st now (some oid) (some pnGood) (some scGood) (some rneg)
        = (st, .roleError) := by
  refine ⟨rfl, ?_, ?_, ?_, rfl, ?_⟩
  · unfold submit
    simp [hbad]
  · unfold submit
    simp [hgood]
  · unfold submit
    simp [hgood, hscBad]
  · unfold submitLegacy
    simp [hgood, not_lt.mpr hscGood, hrneg]

/-- Witness for the amended C2 at concrete inputs. -/
theorem submit_validation_before_store_witness :
    submit noFaults ⟨[], 0⟩ 0 (some "p1") none (some 3) none = (⟨[], 0⟩, .nameError)
    ∧ submit noFaults ⟨[], 0⟩ 0 (some "p1") (some "  ") (some 3) none
        = (⟨[], 0⟩, .nameError)
    ∧ submit noFaults ⟨[], 0⟩ 0 (some "p1") (some "Ann") none none
        = (⟨[], 0⟩, .scoreError)
    ∧ submit noFaults ⟨[], 0⟩ 0 (some "p1") (some "Ann") (some (-2)) none
        = (⟨[], 0⟩, .scoreError)
    ∧ submit noFaults ⟨[], 0⟩ 0 (some "p1") (some "Ann") (some 3) none
        = submit noFaults ⟨[], 0⟩ 0 (some "p1") (some "Ann") (some 3) (some 1)
    ∧ submitLegacy ⟨[], 0⟩ 0 (some "p1") (some "Ann") (some 3) (some (-7))
        = (⟨[], 0⟩, .roleError) :=
  submit_validation_before_store ⟨[], 0⟩ 0 "p1" "  " "Ann" (-2) 3 none (-7) noFaults
    (by decide) (by decide) (by decide) (by decide) (by decide)

/-! ## C7 — store-failure surfacing on the submit path -/

/-- C7 counterexample: a RankStore failure in the trim step of a submit is
not surfaced as a server error. With the trim-side `findAll` throwing (and
the earlier calls succeeding), the part_001 submit still replies with the
code-0 success result — `trimTodayRank` catches the error and reports 0. -/
theorem submit_trim_failure_not_surfaced :
    (submit ⟨false, false, true, false, false⟩ ⟨[], 0⟩ 0
        (some "p1") (some "Alice") (some 5) none).2
      = .ok true "Alice" 1 5 (some 1) "1970-01-01"
    ∧ (submit ⟨false, false, true, false, false⟩ ⟨[], 0⟩ 0
        (some "p1") (some "Alice") (some 5) none).2.code = 0
    ∧ (submit ⟨false, false, true, false, false⟩ ⟨[], 0⟩ 0
        (some "p1") (some "Alice") (some 5) none).2 ≠ .serverError := by decide

/-- C7 amended: a store failure in `findOne` or in the write (`update` /
`create`) step aborts the submit atomically — the reply is the 500 server
error and the table is exactly the pre-submit table, so no trimming is ever
applied without a prior successful upsert; but a store failure inside the
trim or rank steps is caught by those functions (`trimTodayRank` returns 0,
`getPlayerRank` returns null) and the submit still replies with a code-0
result. -/
theorem submit_store_failure_amended (st : RankTable) (now : Nat) (oid pn : String)
    (sc : Int) (rid : Option Int) (r : RankEntry) (w t1 t2 rk : Bool)
    (hname : ¬jsTrim pn = "") (hsc : 0 ≤ sc) :
    submit ⟨true, w, t1, t2, rk⟩ st now (some oid) (some pn) (some sc) rid
        = (st, .serverError)
    ∧ (rankFindOne st.rows oid (getBeijingDateString now) = none →
        submit ⟨false, true, t1, t2, rk⟩ st now (some oid) (some pn) (some sc) rid
          = (st, .serverError))
    ∧ (rankFindOne st.rows oid (getBeijingDateString now) = some r →
        r.instanceID < sc →
        submit ⟨false, true, t1, t2, rk⟩ st now (some oid) (some pn) (some sc) rid
          = (st, .serverError))
    ∧ (submit ⟨false, false, t1, t2, rk⟩ st now (some oid) (some pn) (some sc) rid).2.code
        = 0 := by
  refine ⟨?_, ?_, ?_, ?_⟩
  · unfold submit
    simp [hname, not_lt.mpr hsc]
  · intro hfind
    unfold submit
    simp [hname, not_lt.mpr hsc, hfind]
  · intro hfind himp
    unfold submit
    simp [hname, not_lt.mpr hsc, hfind, himp]
  · unfold submit
    simp only [hname, if_false, not_lt.mpr hsc, ite_false, Bool.false_eq_true, if_neg]
    cases hfind : rankFindOne st.rows oid (getBeijingDateString now) with
    | none => simp [hfind, SubmitResponse.code]
    | some r' =>
      by_cases himp : r'.instanceID < sc
      · simp [hfind, himp, SubmitResponse.code]
      · simp [hfind, himp, SubmitResponse.code]

/-- Witness for the amended C7 at concrete inputs. -/
theorem submit_store_failure_amended_witness :
    submit ⟨true, false, false, false, false⟩ ⟨[], 7⟩ 0
        (some "p1") (some "Ann") (some 3) none = (⟨[], 7⟩, .serverError)
    ∧ (rankFindOne (⟨[], 7⟩ : RankTable).rows "p1" (getBeijingDateString 0) = none →
        submit ⟨false, true, false, false, false⟩ ⟨[], 7⟩ 0
          (some "p1") (some "Ann") (some 3) none = (⟨[], 7⟩, .serverError))
    ∧ (rankFindOne (⟨[], 7⟩ : RankTable).rows "p1" (getBeijingDateString 0)
          = some ⟨0, "x", 1, 0, "p1", "1970-01-01", 0⟩ →
        (⟨0, "x", 1, 0, "p1", "1970-01-01", 0⟩ : RankEntry).instanceID < 3 →
        submit ⟨false, true, false, false, false⟩ ⟨[], 7⟩ 0
          (some "p1") (some "Ann") (some 3) none = (⟨[], 7⟩, .serverError))
    ∧ (submit ⟨false, false, false, false, false⟩ ⟨[], 7⟩ 0
        (some "p1") (some "Ann") (some 3) none).2.code = 0 :=
  submit_store_failure_amended ⟨[], 7⟩ 0 "p1" "Ann" 3 none
    ⟨0, "x", 1, 0, "p1", "1970-01-01", 0⟩ false false false false
    (by decide) (by decide)

/-! ## C5 — the day-boundary cleanup tick -/

/-- C5: when the once-per-minute tick fires at Beijing hour 0 on a day not
yet cleaned, with no cleanup pass already running, then after the tick every
row whose `recordDate` is not the new day is gone, `lastCleanupDay` is the
new day, and `isCleaning` is back to `false`. -/
theorem minuteTick_day_rollover (s : SchedulerState) (now : Nat)
    (hh : getBeijingHour now = 0)
    (hl : s.lastCleanupDay ≠ some (getBeijingDateString now))
    (hc : s.isCleaning = false) :
    ((minuteTick now s).rows.filter
        fun r => !decide (r.recordDate = getBeijingDateString now)) = []
    ∧ (minuteTick now s).lastCleanupDay = some (getBeijingDateString now)
    ∧ (minuteTick now s).isCleaning = false := by
  unfold minuteTick cleanupOldRanks
  simp only [hh, hl, hc, ne_eq, not_false_iff, and_true, if_pos, ite_true,
    Bool.false_eq_true, if_false, ite_false]
  rw [List.filter_eq_nil_iff]
  intro r hr
  have hr' := mem_trimTodayRank hr
  have := (List.mem_filter.mp hr').2
  simp_all

/-- Witness for C5: a concrete boundary tick at `now = 57600000`
(Beijing midnight of 1970-01-02) purges the 1970-01-01 rows. -/
theorem minuteTick_day_rollover_witness :
    ((minuteTick 57600000 ⟨[⟨1, "A", 1, 5, "u1", "1970-01-01", 10⟩,
          ⟨2, "B", 1, 9, "u2", "1970-01-02", 20⟩], some "1970-01-01", false⟩).rows.filter
        fun r => !decide (r.recordDate = getBeijingDateString 57600000)) = []
    ∧ (minuteTick 57600000 ⟨[⟨1, "A", 1, 5, "u1", "1970-01-01", 10⟩,
          ⟨2, "B", 1, 9, "u2", "1970-01-02", 20⟩], some "1970-01-01", false⟩).lastCleanupDay
        = some (getBeijingDateString 57600000)
    ∧ (minuteTick 57600000 ⟨[⟨1, "A", 1, 5, "u1", "1970-01-01", 10⟩,
          ⟨2, "B", 1, 9, "u2", "1970-01-02", 20⟩], some "1970-01-01", false⟩).isCleaning
        = false :=
  minuteTick_day_rollover
    ⟨[⟨1, "A", 1, 5, "u1", "1970-01-01", 10⟩, ⟨2, "B", 1, 9, "u2", "1970-01-02", 20⟩],
      some "1970-01-01", false⟩ 57600000 (by decide) (by decide) (by decide)

/-! ## C3 / C6 — trimming -/

theorem nodup_findTop (rows : List RankEntry) (d : String) (n : Nat)
    (hids : NodupIds rows) : (findTop rows d n).Nodup := by
  unfold findTop
  apply List.Nodup.of_map (fun x => x.id)
  apply List.Nodup.sublist ((List.take_sublist _ _).map _)
  rw [List.Perm.nodup_iff ((List.perm_insertionSort _ _).map _)]
  exact List.Nodup.sublist ((List.filter_sublist _).map _) hids

theorem trim_survivors (rows : List RankEntry) (d : String) (hids : NodupIds rows) :
    ((trimTodayRank false false rows d).1.filter fun r => decide (r.recordDate = d)).Perm
      (findTop rows d 100) := by
  unfold trimTodayRank
  dsimp only
  by_cases h0 : (findTop rows d 100).length = 0
  · simp only [Bool.false_eq_true, if_false, ite_false, h0, if_true, ite_true]
    have hS : (findTop rows d 100) = [] := List.length_eq_zero.mp h0
    have hF : (rows.filter fun r => decide (r.recordDate = d)) = [] := by
      unfold findTop at h0
      rw [List.length_take, List.length_insertionSort] at h0
      exact List.length_eq_zero.mp (by omega)
    rw [hS, hF]
  · simp only [Bool.false_eq_true, if_false, ite_false, h0, if_true, ite_true]
    have hsub : List.Sublist ((rows.filter fun r =>
          !(decide (r.recordDate = d)
            && !((findTop rows d 100).map fun x => x.id).contains r.id)).filter
          fun r => decide (r.recordDate = d)) rows :=
      (List.filter_sublist _).trans (List.filter_sublist _)
    have hids' : (rows.map fun x => x.id).Nodup := hids
    refine (List.perm_ext_iff_of_nodup ?_ (nodup_findTop rows d 100 hids)).mpr ?_
    · exact List.Nodup.of_map (fun x => x.id)
        (List.Nodup.sublist (hsub.map fun x => x.id) hids')
    · intro a
      constructor
      · intro ha
        obtain ⟨ha', hday⟩ := List.mem_filter.mp ha
        obtain ⟨harows, hkeep⟩ := List.mem_filter.mp ha'
        rw [hday] at hkeep
        simp only [Bool.true_and, Bool.not_not] at hkeep
        have : a.id ∈ (findTop rows d 100).map fun x => x.id := by
          simpa [List.elem_iff] using hkeep
        obtain ⟨k, hkK, hkid⟩ := List.mem_map.mp this
        have hkrows := (mem_findTop hkK).1
        have := List.inj_on_of_nodup_map hids hkrows harows hkid
        exact this ▸ hkK
      · intro haK
        obtain ⟨harows, hday⟩ := mem_findTop haK
        have hid : ((findTop rows d 100).map fun x => x.id).contains a.id = true := by
          simp only [List.elem_iff]
          exact List.mem_map.mpr ⟨a, haK, rfl⟩
        refine List.mem_filter.mpr ⟨List.mem_filter.mpr ⟨harows, ?_⟩, by simp [hday]⟩
        simp only [hid, Bool.not_true, Bool.and_false, Bool.not_false]

/-- C3: after `trimTodayRank(d)` the rows remaining for day `d` number
`min(100, preTrimCount)`, and they are exactly (a permutation of) the
`findTop(d, 100)` window — ordered by score desc, `createdAt` asc —
computed on the pre-trim table. -/
theorem trim_post_state (rows : List RankEntry) (d : String) (hids : NodupIds rows) :
    ((trimTodayRank false false rows d).1.filter fun r => decide (r.recordDate = d)).length
      = min 100 (rows.filter fun r => decide (r.recordDate = d)).length
    ∧ ((trimTodayRank false false rows d).1.filter fun r => decide (r.recordDate = d)).Perm
      (findTop rows d 100) := by
  have hperm := trim_survivors rows d hids
  refine ⟨?_, hperm⟩
  rw [hperm.length_eq]
  unfold findTop
  rw [List.length_take, List.length_insertionSort]

/-- Witness for C3 at a concrete three-row table (two rows on the day). -/
theorem trim_post_state_witness :
    (((trimTodayRank false false
          [⟨1, "A", 1, 5, "u1", "d1", 1⟩, ⟨2, "B", 1, 9, "u2", "d1", 2⟩,
           ⟨3, "C", 1, 7, "u3", "d2", 3⟩] "d1").1.filter
        fun r => decide (r.recordDate = "d1")).length
      = min 100 ([⟨1, "A", 1, 5, "u1", "d1", 1⟩, ⟨2, "B", 1, 9, "u2", "d1", 2⟩,
           ⟨3, "C", 1, 7, "u3", "d2", 3⟩].filter
            fun r : RankEntry => decide (r.recordDate = "d1")).length)
    ∧ ((trimTodayRank false false
          [⟨1, "A", 1, 5, "u1", "d1", 1⟩, ⟨2, "B", 1, 9, "u2", "d1", 2⟩,
           ⟨3, "C", 1, 7, "u3", "d2", 3⟩] "d1").1.filter
        fun r => decide (r.recordDate = "d1")).Perm
      (findTop [⟨1, "A", 1, 5, "u1", "d1", 1⟩, ⟨2, "B", 1, 9, "u2", "d1", 2⟩,
           ⟨3, "C", 1, 7, "u3", "d2", 3⟩] "d1" 100) :=
  trim_post_state
    [⟨1, "A", 1, 5, "u1", "d1", 1⟩, ⟨2, "B", 1, 9, "u2", "d1", 2⟩,
     ⟨3, "C", 1, 7, "u3", "d2", 3⟩] "d1" (by decide)

theorem day_rows_all_in_findTop (l : List RankEntry) (d : String)
    (hlen : (l.filter fun r => decide (r.recordDate = d)).length ≤ 100) :
    ∀ r ∈ l, r.recordDate = d → r ∈ findTop l d 100 := by
  intro r hr hd
  unfold findTop
  rw [List.take_of_length_le (by rw [List.length_insertionSort]; exact hlen)]
  rw [List.mem_insertionSort]
  exact List.mem_filter.mpr ⟨hr, by simp [hd]⟩

theorem trim_deletes_nothing (l : List RankEntry) (d : String)
    (h : ∀ r ∈ l, r.recordDate = d → r ∈ findTop l d 100) :
    (trimTodayRank false false l d).2 = 0 := by
  unfold trimTodayRank
  dsimp only
  by_cases h0 : (findTop l d 100).length = 0
  · simp [h0]
  · simp only [Bool.false_eq_true, if_false, ite_false, h0, if_true, ite_true]
    rw [List.length_eq_zero, List.filter_eq_nil_iff]
    intro r hr
    by_cases hd : r.recordDate = d
    · have hid : ((findTop l d 100).map fun x => x.id).contains r.id = true := by
        simp only [List.elem_iff]
        exact List.mem_map.mpr ⟨r, h r hr hd, rfl⟩
      simp only [hid, Bool.not_true, Bool.and_false]
      exact fun hcontra => nomatch hcontra
    · simp [hd]

/-- C6: trimming is idempotent — after a `trimTodayRank(d)`, a second
`trimTodayRank(d)` with no intervening writes deletes zero rows. -/
theorem trim_second_deletes_zero (rows : List RankEntry) (d : String)
    (hids : NodupIds rows) :
    (trimTodayRank false false (trimTodayRank false false rows d).1 d).2 = 0 := by
  apply trim_deletes_nothing
  apply day_rows_all_in_findTop
  rw [(trim_survivors rows d hids).length_eq]
  unfold findTop
  rw [List.length_take, List.length_insertionSort]
  omega

/-- Witness for C6 at a concrete table. -/
theorem trim_second_deletes_zero_witness :
    (trimTodayRank false false
        (trimTodayRank false false
          [⟨1, "A", 1, 5, "u1", "d1", 1⟩, ⟨2, "B", 1, 9, "u2", "d1", 2⟩,
           ⟨3, "C", 1, 7, "u3", "d2", 3⟩] "d1").1 "d1").2 = 0 :=
  trim_second_deletes_zero
    [⟨1, "A", 1, 5, "u1", "d1", 1⟩, ⟨2, "B", 1, 9, "u2", "d1", 2⟩,
     ⟨3, "C", 1, 7, "u3", "d2", 3⟩] "d1" (by decide)

/-! ## C4 — the rank formula -/

theorem find?_eq_some_of_unique {α : Type} (pred : α → Bool) (l : List α) (a : α)
    (ha : a ∈ l) (hpa : pred a = true)
    (huniq : ∀ b ∈ l, pred b = true → b = a) :
    l.find? pred = some a := by
  induction l with
  | nil => cases ha
  | cons x xs ih =>
    by_cases hx : pred x = true
    · rw [List.find?_cons_of_pos _ hx]
      exact congrArg some (huniq x (List.mem_cons_self _ _) hx)
    · rw [List.find?_cons_of_neg _ hx]
      rcases List.mem_cons.mp ha with rfl | ha'
      · exact absurd hpa hx
      · exact ih ha' fun b hb hpb => huniq b (List.mem_cons_of_mem _ hb) hpb

theorem higherLoop_eq_filter (s : Int) (t : Nat) (l : List RankEntry)
    (hl : l.Pairwise RankBefore) :
    higherLoop s t l
      = (l.filter fun e => decide (s < e.instanceID)
          || (decide (e.instanceID = s) && decide (e.createdAt < t))).length := by
  induction l with
  | nil => rfl
  | cons r rest ih =>
    rw [List.pairwise_cons] at hl
    obtain ⟨hr, hrest⟩ := hl
    by_cases h1 : s < r.instanceID
    · have hstep : higherLoop s t (r :: rest) = higherLoop s t rest + 1 := by
        simp only [higherLoop]
        rw [if_pos h1]
      have hpred : (decide (s < r.instanceID)
          || (decide (r.instanceID = s) && decide (r.createdAt < t))) = true := by
        simp [h1]
      rw [hstep, ih hrest, List.filter_cons, hpred]
      simp
    · by_cases h2 : r.instanceID = s ∧ r.createdAt < t
      · have hstep : higherLoop s t (r :: rest) = higherLoop s t rest + 1 := by
          simp only [higherLoop]
          rw [if_neg h1, if_pos h2]
        have hpred : (decide (s < r.instanceID)
            || (decide (r.instanceID = s) && decide (r.createdAt < t))) = true := by
          simp [h2.1, h2.2]
        rw [hstep, ih hrest, List.filter_cons, hpred]
        simp
      · have hstep : higherLoop s t (r :: rest) = 0 := by
          simp only [higherLoop]
          rw [if_neg h1, if_neg h2]
        have hnil : ((r :: rest).filter fun e => decide (s < e.instanceID)
            || (decide (e.instanceID = s) && decide (e.createdAt < t))) = [] := by
          rw [List.filter_eq_nil_iff]
          intro e he
          rcases List.mem_cons.mp he with rfl | he'
          · simp only [Bool.or_eq_true, decide_eq_true_eq, Bool.and_eq_true, not_or]
            exact ⟨h1, fun hc => h2 ⟨hc.1, hc.2⟩⟩
          · have hre := hr e he'
            simp only [Bool.or_eq_true, decide_eq_true_eq, Bool.and_eq_true, not_or]
            rw [not_lt] at h1
            rcases hre with hlt | ⟨heq, hle⟩
            · constructor
              · omega
              · rintro ⟨hes, _⟩
                omega
            · constructor
              · omega
              · rintro ⟨hes, het⟩
                have ht : ¬r.createdAt < t := fun hc => h2 ⟨by omega, hc⟩
                omega
        rw [hstep, hnil]
        rfl

/-- C4: `getPlayerRank` matches the spec's rank formula. For the (unique)
entry `p` of the player inside the top-100 window for day `d`, the result is
`1 +` the number of window entries with a strictly higher score or an equal
score and strictly earlier `createdAt`; for a player with no entry in the
window the result is `null`. The uniqueness hypothesis is the table's
`(openid, recordDate)` unique index. -/
theorem getPlayerRank_rank_formula (rows : List RankEntry) (d oid : String)
    (huniq : UniqueKey rows) :
    (∀ p, p ∈ findTop rows d 100 → p.openid = oid →
      getPlayerRank false rows oid d
        = some (((findTop rows d 100).filter fun e =>
            decide (p.instanceID < e.instanceID)
            || (decide (e.instanceID = p.instanceID)
                && decide (e.createdAt < p.createdAt))).length + 1))
    ∧ ((∀ e ∈ findTop rows d 100, ¬e.openid = oid) →
      getPlayerRank false rows oid d = none) := by
  constructor
  · intro p hp hpo
    have hfind : (findTop rows d 100).find? (fun r => decide (r.openid = oid)) = some p := by
      apply find?_eq_some_of_unique _ _ _ hp (by simp [hpo])
      intro b hb hpb
      have hbo : b.openid = oid := of_decide_eq_true hpb
      obtain ⟨hbrows, hbd⟩ := mem_findTop hb
      obtain ⟨hprows, hpd⟩ := mem_findTop hp
      exact huniq b hbrows p hprows (hbo.trans hpo.symm) (hbd.trans hpd.symm)
    unfold getPlayerRank
    rw [if_neg (by simp)]
    dsimp only
    rw [hfind]
    dsimp only
    rw [higherLoop_eq_filter _ _ _ (findTop_pairwise rows d 100)]
  · intro habsent
    have hfind : (findTop rows d 100).find? (fun r => decide (r.openid = oid)) = none := by
      rw [List.find?_eq_none]
      intro e he
      simp [habsent e he]
    unfold getPlayerRank
    rw [if_neg (by simp)]
    dsimp only
    rw [hfind]

/-- Witness for C4 at a concrete two-player day: the lower-scored player is
ranked 2 by the formula, an unknown player is unranked. -/
theorem getPlayerRank_rank_formula_witness :
    getPlayerRank false
        [⟨1, "A", 1, 9, "u1", "d1", 2⟩, ⟨2, "B", 1, 5, "u2", "d1", 3⟩] "u2" "d1"
      = some 2
    ∧ getPlayerRank false
        [⟨1, "A", 1, 9, "u1", "d1", 2⟩, ⟨2, "B", 1, 5, "u2", "d1", 3⟩] "zz" "d1"
      = none := by
  constructor
  · have h := (getPlayerRank_rank_formula
        [⟨1, "A", 1, 9, "u1", "d1", 2⟩, ⟨2, "B", 1, 5, "u2", "d1", 3⟩] "d1" "u2"
        (by decide)).1 ⟨2, "B", 1, 5, "u2", "d1", 3⟩ (by decide) (by decide)
    rw [h]
    decide
  · exact (getPlayerRank_rank_formula
        [⟨1, "A", 1, 9, "u1", "d1", 2⟩, ⟨2, "B", 1, 5, "u2", "d1", 3⟩] "d1" "zz"
        (by decide)).2 (by decide)

/-! ## C9 — an improving update touches only name, role and score -/

/-- C9: when an improving submission updates the player's existing row `r`,
every row for that `(openid, day)` key that remains after the submit is
exactly `r` with only `playerName`, `roleID` and `instanceID` replaced — in
particular `id`, `openid`, `recordDate` and the `createdAt` tie-break
timestamp are never changed by the update. -/
theorem submit_update_frame (st : RankTable) (now : Nat) (oid pn : String)
    (sc : Int) (rid : Option Int) (r : RankEntry)
    (hname : ¬jsTrim pn = "") (hsc : 0 ≤ sc)
    (hfind : rankFindOne st.rows oid (getBeijingDateString now) = some r)
    (himp : r.instanceID < sc) (huniq : UniqueKey st.rows) :
    ((submit noFaults st now (some oid) (some pn) (some sc) rid).1.rows.filter
        fun x => decide (x.openid = oid)
          && decide (x.recordDate = getBeijingDateString now)).all
      (fun x => decide
        (x = { r with playerName := jsTrim pn, roleID := rid.getD 1, instanceID := sc }))
      = true := by
  have hsub : (submit noFaults st now (some oid) (some pn) (some sc) rid).1.rows
      = (trimTodayRank false false
          (st.rows.map fun x =>
            if x.id = r.id then
              { r with playerName := jsTrim pn, roleID := rid.getD 1, instanceID := sc }
            else x) (getBeijingDateString now)).1 := by
    unfold submit noFaults
    simp only [hname, if_false, not_lt.mpr hsc, ite_false, Bool.false_eq_true,
      hfind, himp, if_true, ite_true]
  rw [List.all_eq_true]
  intro x hx
  rw [hsub] at hx
  obtain ⟨hx1, hkey⟩ := List.mem_filter.mp hx
  obtain ⟨y, hy, hgy⟩ := List.mem_map.mp (mem_trimTodayRank hx1)
  unfold rankFindOne at hfind
  have hrmem : r ∈ st.rows := List.mem_of_find?_eq_some hfind
  have hrpred := List.find?_some hfind
  simp only [Bool.and_eq_true, decide_eq_true_eq] at hrpred hkey
  by_cases hyid : y.id = r.id
  · rw [if_pos hyid] at hgy
    rw [← hgy]
    simp
  · rw [if_neg hyid] at hgy
    have h1 : y.openid = r.openid := by rw [hgy]; exact hkey.1.trans hrpred.1.symm
    have h2 : y.recordDate = r.recordDate := by
      rw [hgy]; exact hkey.2.trans hrpred.2.symm
    have hyr : y = r := huniq y hy r hrmem h1 h2
    exact absurd (congrArg RankEntry.id hyr) hyid

/-- Witness for C9: improving a stored score from 5 to 9 rewrites only the
name, role and score; id and `createdAt` survive. -/
theorem submit_update_frame_witness :
    ((submit noFaults ⟨[⟨1, "Old", 1, 5, "p1", "1970-01-01", 3⟩], 2⟩ 4000
        (some "p1") (some "New ") (some 9) (some 4)).1.rows.filter
        fun x => decide (x.openid = "p1")
          && decide (x.recordDate = getBeijingDateString 4000)).all
      (fun x => decide
        (x = { (⟨1, "Old", 1, 5, "p1", "1970-01-01", 3⟩ : RankEntry) with playerName := jsTrim "New ", roleID := (some (4 : Int)).getD 1, instanceID := 9 }))
      = true :=
  submit_update_frame ⟨[⟨1, "Old", 1, 5, "p1", "1970-01-01", 3⟩], 2⟩ 4000
    "p1" "New " 9 (some 4) ⟨1, "Old", 1, 5, "p1", "1970-01-01", 3⟩
    (by decide) (by decide) (by decide) (by decide) (by decide)

/-! ## C10 — a submission outside the top 100 is created, then trimmed away -/

/-- In a `RankBefore`-sorted duplicate-free list, an element preceded in the
order by at least 100 strictly better entries cannot be in the first 100. -/
theorem not_mem_take_of_many_before (l : List RankEntry) (a : RankEntry)
    (hl : l.Pairwise RankBefore) (hnd : l.Nodup) (ha : a ∈ l)
    (hmany : 100 ≤ (l.filter fun e =>
        decide (a.instanceID < e.instanceID)
        || (decide (e.instanceID = a.instanceID)
            && decide (e.createdAt < a.createdAt))).length) :
    a ∉ l.take 100 := by
  obtain ⟨l₁, l₂, rfl⟩ := List.append_of_mem ha
  rw [List.pairwise_append] at hl
  obtain ⟨h₁, h₂, _⟩ := hl
  rw [List.pairwise_cons] at h₂
  obtain ⟨hal₂, _⟩ := h₂
  have hf₂ : (l₂.filter fun e => decide (a.instanceID < e.instanceID)
      || (decide (e.instanceID = a.instanceID)
          && decide (e.createdAt < a.createdAt))) = [] := by
    rw [List.filter_eq_nil_iff]
    intro e he
    have hre : e.instanceID < a.instanceID
        ∨ (a.instanceID = e.instanceID ∧ a.createdAt ≤ e.createdAt) := hal₂ e he
    simp only [Bool.or_eq_true, decide_eq_true_eq, Bool.and_eq_true, not_or]
    rcases hre with hlt | ⟨heq, hle⟩
    · exact ⟨by omega, by rintro ⟨h1, h2⟩; omega⟩
    · exact ⟨by omega, by rintro ⟨h1, h2⟩; omega⟩
  have hfa : (decide (a.instanceID < a.instanceID)
      || (decide (a.instanceID = a.instanceID)
          && decide (a.createdAt < a.createdAt))) = false := by simp
  have hlen : 100 ≤ l₁.length := by
    rw [List.filter_append, List.filter_cons, hfa] at hmany
    simp only [if_false, Bool.false_eq_true, ite_false, hf₂, List.append_nil] at hmany
    exact hmany.trans (List.length_filter_le _ _)
  intro hmem
  rw [List.take_append_eq_append_take,
    Nat.sub_eq_zero_of_le hlen, List.take_zero, List.append_nil] at hmem
  have hal₁ : a ∈ l₁ := (List.take_sublist _ _).mem hmem
  rw [List.nodup_append] at hnd
  exact hnd.2.2 hal₁ (List.mem_cons_self _ _)

/-- The create branch of the part_001 submit: validation passed, no existing
row — append the fresh row, trim, compute the rank, reply with success. -/
theorem submit_create_branch (st : RankTable) (now : Nat) (oid pn : String)
    (sc : Int) (rid : Option Int)
    (hname : ¬jsTrim pn = "") (hsc : 0 ≤ sc)
    (hnone : rankFindOne st.rows oid (getBeijingDateString now) = none) :
    submit noFaults st now (some oid) (some pn) (some sc) rid
      = (⟨(trimTodayRank false false
            (st.rows ++ [⟨st.nextId, jsTrim pn, rid.getD 1, sc, oid,
              getBeijingDateString now, now⟩])
            (getBeijingDateString now)).1, st.nextId + 1⟩,
         .ok true (jsTrim pn) (rid.getD 1) sc
           (getPlayerRank false (trimTodayRank false false
              (st.rows ++ [⟨st.nextId, jsTrim pn, rid.getD 1, sc, oid,
                getBeijingDateString now, now⟩])
              (getBeijingDateString now)).1 oid (getBeijingDateString now))
           (getBeijingDateString now)) := by
  unfold submit noFaults
  simp only [hname, if_false, not_lt.mpr hsc, ite_false, Bool.false_eq_true, hnone]

/-- C10: on a day that already has at least 100 rows strictly better than the
submission (higher score, or equal score submitted earlier), a valid first
submission by a player still replies with success and `rank = null` (not on
the board), and the row it created is deleted again by the trim inside the
same submit — a point lookup for the player afterwards finds no row. -/
theorem submit_overflow_dropped (st : RankTable) (now : Nat) (oid pn : String)
    (sc : Int) (rid : Option Int)
    (hname : ¬jsTrim pn = "") (hsc : 0 ≤ sc)
    (hids : NodupIds st.rows)
    (hfresh : ∀ r ∈ st.rows, r.id ≠ st.nextId)
    (hnone : rankFindOne st.rows oid (getBeijingDateString now) = none)
    (hmany : 100 ≤ (st.rows.filter fun r =>
        decide (r.recordDate = getBeijingDateString now)
        && (decide (sc < r.instanceID)
            || (decide (r.instanceID = sc) && decide (r.createdAt < now)))).length) :
    (submit noFaults st now (some oid) (some pn) (some sc) rid).2
      = .ok true (jsTrim pn) (rid.getD 1) sc none (getBeijingDateString now)
    ∧ rankFindOne (submit noFaults st now (some oid) (some pn) (some sc) rid).1.rows
        oid (getBeijingDateString now) = none := by
  have hsub := submit_create_branch st now oid pn sc rid hname hsc hnone
  set d := getBeijingDateString now with hd
  set new : RankEntry := ⟨st.nextId, jsTrim pn, rid.getD 1, sc, oid, d, now⟩ with hnewdef
  have hidsnew : NodupIds (st.rows ++ [new]) := by
    unfold NodupIds at hids ⊢
    rw [List.map_append, List.nodup_append]
    refine ⟨hids, List.nodup_singleton _, ?_⟩
    intro i hi hicontra
    obtain ⟨r, hrmem, hrid⟩ := List.mem_map.mp hi
    have : i = new.id := by simpa using hicontra
    exact hfresh r hrmem (hrid.symm ▸ this ▸ rfl)
  have hF : (st.rows ++ [new]).filter (fun r => decide (r.recordDate = d))
      = (st.rows.filter fun r => decide (r.recordDate = d)) ++ [new] := by
    rw [List.filter_append]
    simp [hnewdef]
  have hF_nodup : ((st.rows ++ [new]).filter fun r => decide (r.recordDate = d)).Nodup := by
    have hidsnew' : ((st.rows ++ [new]).map fun x => x.id).Nodup := hidsnew
    exact List.Nodup.of_map (fun x => x.id)
      (List.Nodup.sublist
        ((List.filter_sublist (st.rows ++ [new])).map fun x => x.id) hidsnew')
  have hS_nodup : (List.insertionSort RankBefore
      ((st.rows ++ [new]).filter fun r => decide (r.recordDate = d))).Nodup :=
    (List.perm_insertionSort _ _).nodup_iff.mpr hF_nodup
  have hnewS : new ∈ List.insertionSort RankBefore
      ((st.rows ++ [new]).filter fun r => decide (r.recordDate = d)) := by
    rw [List.mem_insertionSort, hF]
    exact List.mem_append_right _ (List.mem_singleton_self _)
  have hmanyS : 100 ≤ ((List.insertionSort RankBefore
      ((st.rows ++ [new]).filter fun r => decide (r.recordDate = d))).filter
        fun e => decide (sc < e.instanceID)
          || (decide (e.instanceID = sc) && decide (e.createdAt < now))).length := by
    rw [((List.perm_insertionSort RankBefore _).filter _).length_eq, hF,
      List.filter_append, List.filter_filter]
    have hnewfalse : ([new].filter fun e => decide (sc < e.instanceID)
        || (decide (e.instanceID = sc) && decide (e.createdAt < now))) = [] := by
      simp [hnewdef]
    rw [hnewfalse, List.append_nil]
    have hcomm : (st.rows.filter fun a =>
          (decide (sc < a.instanceID)
            || (decide (a.instanceID = sc) && decide (a.createdAt < now)))
          && decide (a.recordDate = d))
        = st.rows.filter fun a => decide (a.recordDate = d)
            && (decide (sc < a.instanceID)
              || (decide (a.instanceID = sc) && decide (a.createdAt < now))) :=
      List.filter_congr fun a _ => Bool.and_comm _ _
    rw [hcomm]
    exact hmany
  have hnotin : new ∉ (List.insertionSort RankBefore
      ((st.rows ++ [new]).filter fun r => decide (r.recordDate = d))).take 100 :=
    not_mem_take_of_many_before _ new
      (List.sorted_insertionSort RankBefore _) hS_nodup hnewS hmanyS
  have hKdef : findTop (st.rows ++ [new]) d 100
      = (List.insertionSort RankBefore
          ((st.rows ++ [new]).filter fun r => decide (r.recordDate = d))).take 100 := rfl
  have hid_notin : (((findTop (st.rows ++ [new]) d 100).map fun x => x.id).contains
      new.id) = false := by
    rw [Bool.eq_false_iff]
    intro hc
    simp only [List.elem_iff] at hc
    obtain ⟨k, hkK, hkid⟩ := List.mem_map.mp hc
    have hkrows := (mem_findTop hkK).1
    have hnewrows : new ∈ st.rows ++ [new] :=
      List.mem_append_right _ (List.mem_singleton_self _)
    have hkeq := List.inj_on_of_nodup_map hidsnew hkrows hnewrows hkid
    rw [hkeq] at hkK
    exact hnotin (hKdef ▸ hkK)
  have hKlen : ¬(findTop (st.rows ++ [new]) d 100).length = 0 := by
    rw [hKdef, List.length_take]
    have hpos : 0 < (List.insertionSort RankBefore
        ((st.rows ++ [new]).filter fun r => decide (r.recordDate = d))).length :=
      List.length_pos_of_mem hnewS
    omega
  have htrim : (trimTodayRank false false (st.rows ++ [new]) d).1
      = (st.rows ++ [new]).filter fun r =>
          !(decide (r.recordDate = d)
            && !(((findTop (st.rows ++ [new]) d 100).map fun x => x.id).contains r.id)) := by
    unfold trimTodayRank
    dsimp only
    simp only [Bool.false_eq_true, if_false, ite_false, hKlen, if_true, ite_true]
  have hkey : ∀ x ∈ (trimTodayRank false false (st.rows ++ [new]) d).1,
      ¬(x.openid = oid ∧ x.recordDate = d) := by
    intro x hx hxk
    rw [htrim] at hx
    obtain ⟨hxmem, hxpred⟩ := List.mem_filter.mp hx
    rcases List.mem_append.mp hxmem with hxold | hxnewm
    · exact (rankFindOne_eq_none.mp hnone x hxold) hxk
    · have hxn : x = new := List.mem_singleton.mp hxnewm
      subst hxn
      rw [hid_notin] at hxpred
      simp [hnewdef] at hxpred
  have hrank : getPlayerRank false (trimTodayRank false false (st.rows ++ [new]) d).1
      oid d = none := by
    unfold getPlayerRank
    rw [if_neg (by simp)]
    dsimp only
    have hfind : ((findTop (trimTodayRank false false (st.rows ++ [new]) d).1 d 100).find?
        fun r => decide (r.openid = oid)) = none := by
      rw [List.find?_eq_none]
      intro e he
      obtain ⟨het, hed⟩ := mem_findTop he
      simp only [decide_eq_true_eq]
      exact fun heo => hkey e het ⟨heo, hed⟩
    rw [hfind]
  rw [hsub]
  exact ⟨by rw [hrank], rankFindOne_eq_none.mpr hkey⟩

set_option maxRecDepth 4000 in
/-- Witness for C10: with 100 rows of score 1000 already stored for the day,
a first submission of score 5 succeeds with `rank = null` and leaves no row
behind for the submitter. -/
theorem submit_overflow_dropped_witness :
    (submit noFaults ⟨overflowWitnessRows, 100⟩ 5000000
        (some "me") (some "Zed") (some 5) none).2
      = .ok true (jsTrim "Zed") ((none : Option Int).getD 1) 5 none
          (getBeijingDateString 5000000)
    ∧ rankFindOne (submit noFaults ⟨overflowWitnessRows, 100⟩ 5000000
        (some "me") (some "Zed") (some 5) none).1.rows "me"
        (getBeijingDateString 5000000) = none :=
  submit_overflow_dropped ⟨overflowWitnessRows, 100⟩ 5000000 "me" "Zed" 5 none
    (by decide) (by decide) (by decide) (by decide) (by decide) (by decide)

end Minigame
